import Mathlib

/-!
Shallow embedding of the CHIP-8 emulator core (`src/engine/isa.rs`,
`src/engine/register.rs`, `src/engine/memory.rs`).

Machine integers are modelled as `Nat`; 8-bit / 16-bit wrap-around is written
explicitly as `% 256` / `% 65536` exactly where the Rust source performs a
wrapping operation (`overflowing_add`, `overflowing_sub`, `<<=`).  Plain Rust
`+` / `+=` / `*` on `u8`/`u16` is *checked* arithmetic in a debug build
(overflow panics); it is modelled by `checkedAdd` / `checkedMul` returning
`none` on overflow.  A panic (`assert!` failure, arithmetic overflow,
out-of-bounds slice) is modelled as the `none` result of the enclosing
operation.
-/

/-- Width-`w` unsigned addition as Rust debug-build `+` / `+=`: `none` models
the overflow panic. -/
def checkedAdd (w a b : Nat) : Option Nat :=
  if a + b < 2 ^ w then some (a + b) else none

/-- Width-`w` unsigned multiplication as Rust debug-build `*`: `none` models
the overflow panic. -/
def checkedMul (w a b : Nat) : Option Nat :=
  if a * b < 2 ^ w then some (a * b) else none

/-- The instruction enum.  `register.rs::update_registers` matches on the full
variant set listed here; `isa.rs` declares (and its decoder produces) only a
subset of these variants. -/
inductive Instruction where
  | Ignore                                  -- 0x0nnn
  | ClearDisplay                            -- 0x00E0
  | ReturnSubroutine                        -- 0x00EE
  | JmpAddr (addr : Nat)                    -- 0x1nnn
  | JmpAddrOffReg0 (addr : Nat)             -- 0xBnnn
  | CallSub (addr : Nat)                    -- 0x2nnn
  | SkipEq (r val : Nat)                    -- 0x3xkk
  | SkipNeq (r val : Nat)                   -- 0x4xkk
  | SkipRegEq (r f : Nat)                   -- 0x5xy0
  | SetByte (r val : Nat)                   -- 0x6xkk
  | AddByte (r val : Nat)                   -- 0x7xkk
  | SetRegV (r f : Nat)                     -- 0x8xy0
  | OrRegV (r f : Nat)                      -- 0x8xy1
  | AndRegV (r f : Nat)                     -- 0x8xy2
  | XorRegV (r f : Nat)                     -- 0x8xy3
  | AddRegV (r f : Nat)                     -- 0x8xy4
  | SubRegV (r f : Nat)                     -- 0x8xy5
  | ShrRegV (r : Nat)                       -- 0x8x_6
  | SubNRegV (r f : Nat)                    -- 0x8xy7
  | ShlRegV (r : Nat)                       -- 0x8x_E
  | SkipRegNeq (r f : Nat)                  -- 0x9xy0
  | SetRegL (l : Nat)                       -- 0xAnnn
  | RndAnd (r val : Nat)                    -- 0xCxkk
  | DispSpr (rx ry n : Nat)                 -- 0xDxyn
  | SkipKeyPressed (r : Nat)                -- 0xEx9E
  | SkipKeyReleased (r : Nat)               -- 0xExA1
  | SetDelayToReg (r : Nat)                 -- 0xFx07
  | WaitKeyPress (r : Nat)                  -- 0xFx0A
  | SetDelayFromReg (r : Nat)               -- 0xFx15
  | SetSoundFromReg (r : Nat)               -- 0xFx18
  | AddRegL (r : Nat)                       -- 0xFx1E
  | SetRegLFontAddrFromReg (r : Nat)        -- 0xFx29
  | MemDump (endr : Nat)                    -- 0xFx55
  | MemRead (endr : Nat)                    -- 0xFx65
deriving DecidableEq

/-- Side effects returned by the execution engine (`register.rs::SideEffect`). -/
inductive SideEffect where
  | Draw (pos : Nat × Nat) (n : Nat) (l : Nat)
  | ClearDisplay
  | MemDump (dump_vals : List Nat) (l : Nat)
  | MemRead (count : Nat) (l : Nat)
  | WaitKeyPress (r : Nat)
  | CheckKeyPressed (key : Nat)
  | CheckKeyReleased (key : Nat)
deriving DecidableEq

/-- The register file (`register.rs::Registers`).  `g` is the 16-entry general
register array, `vf` the separate boolean flag cell, `spst` the stack-pointer
stack with the list head as the top of stack. -/
structure Registers where
  g : List Nat
  sl : Nat
  vf : Bool
  pc : Nat
  spst : List Nat
  dt : Nat
  st : Nat
deriving DecidableEq

/-- `Registers::new()`. -/
def Registers.new : Registers :=
  { g := List.replicate 16 0
    sl := 0
    vf := false
    pc := 0x200
    spst := []
    dt := 0
    st := 0 }

/-- `Registers::general_register`.  Callers guarantee `r < 16` (the decoder
emits 4-bit register fields; a Rust out-of-range index would panic), so the
`getD` default is never observed under the hypotheses of the theorems below. -/
def Registers.general_register (s : Registers) (r : Nat) : Nat :=
  s.g.getD r 0

/-- `Registers::increase_pc`: `self.pc += inst_count << 1` on `u16`
(checked in a debug build). -/
def Registers.increase_pc (s : Registers) (inst_count : Nat) : Option Registers :=
  match checkedAdd 16 s.pc (inst_count <<< 1) with
  | none => none
  | some p => some { s with pc := p }

/-- `Registers::update_vf`. -/
def Registers.update_vf (s : Registers) (is_set : Bool) : Registers :=
  { s with vf := is_set }

/-- `Registers::update_registers`.  `rnd` is the byte produced by
`rand::random::<u8>()` in the `RndAnd` arm — the one source of nondeterminism,
passed in explicitly.  Result `none` models a panic (failed `assert!`,
checked-arithmetic overflow, or out-of-bounds slice in a debug build);
`some (s, eff)` is normal completion with the mutated register file and the
optional side effect. -/
def Registers.update_registers (s : Registers) (inst : Instruction) (rnd : Nat) :
    Option (Registers × Option SideEffect) :=
  let step : Option (Registers × Nat × Option SideEffect) :=
    match inst with
    | .Ignore => some (s, 1, none)
    | .ClearDisplay => some (s, 1, some .ClearDisplay)
    | .ReturnSubroutine =>
      -- assert!(self.spst.is_empty() == false); pop; set_pc; increase_pc(1)
      match s.spst with
      | [] => none
      | new_pc :: rest =>
        match Registers.increase_pc { s with spst := rest, pc := new_pc } 1 with
        | none => none
        | some s1 => some (s1, 0, none)
    | .JmpAddr addr => some ({ s with pc := addr }, 0, none)
    | .JmpAddrOffReg0 new_pc =>
      match checkedAdd 16 (s.general_register 0) new_pc with
      | none => none
      | some p => some ({ s with pc := p }, 0, none)
    | .CallSub new_pc => some ({ s with spst := s.pc :: s.spst, pc := new_pc }, 0, none)
    | .SkipEq r val => some (s, if s.general_register r = val then 2 else 1, none)
    | .SkipNeq r val => some (s, if s.general_register r ≠ val then 2 else 1, none)
    | .SkipRegEq r f =>
      some (s, if s.general_register r = s.general_register f then 2 else 1, none)
    | .SetByte r val => some ({ s with g := s.g.set r val }, 1, none)
    | .AddByte r val =>
      -- self.g[r] += val  (checked u8 addition in a debug build)
      match checkedAdd 8 (s.general_register r) val with
      | none => none
      | some v => some ({ s with g := s.g.set r v }, 1, none)
    | .SetRegV r f => some ({ s with g := s.g.set r (s.general_register f) }, 1, none)
    | .OrRegV r f =>
      some ({ s with g := s.g.set r (s.general_register r ||| s.general_register f) }, 1, none)
    | .AndRegV r f =>
      some ({ s with g := s.g.set r (s.general_register r &&& s.general_register f) }, 1, none)
    | .XorRegV r f =>
      some ({ s with g := s.g.set r (s.general_register r ^^^ s.general_register f) }, 1, none)
    | .AddRegV r f =>
      -- overflowing_add: value wraps mod 256, carry flag iff the sum overflowed
      let a := s.general_register r
      let b := s.general_register f
      some ({ s with g := s.g.set r ((a + b) % 256), vf := decide (256 ≤ a + b) }, 1, none)
    | .SubRegV r f =>
      -- overflowing_sub: is_borrow = (a < b); update_vf(!is_borrow)
      let a := s.general_register r
      let b := s.general_register f
      some ({ s with g := s.g.set r ((a + 256 - b) % 256), vf := decide (b ≤ a) }, 1, none)
    | .ShrRegV r =>
      let v := s.general_register r
      some ({ s with vf := decide (v &&& 1 = 1), g := s.g.set r (v >>> 1) }, 1, none)
    | .SubNRegV r f =>
      -- operands swapped: is_borrow = (b < a) for a = g[f], b = g[r]
      let a := s.general_register f
      let b := s.general_register r
      some ({ s with g := s.g.set r ((a + 256 - b) % 256), vf := decide (b ≤ a) }, 1, none)
    | .ShlRegV r =>
      let v := s.general_register r
      some ({ s with vf := decide (v &&& 0x80 = 0x80), g := s.g.set r ((v <<< 1) % 256) }, 1, none)
    | .SkipRegNeq r f =>
      some (s, if s.general_register r ≠ s.general_register f then 2 else 1, none)
    | .SetRegL new_l => some ({ s with sl := new_l }, 1, none)
    | .RndAnd r val => some ({ s with g := s.g.set r (rnd &&& val) }, 1, none)
    | .DispSpr rx ry n =>
      some (s, 1, some (.Draw (s.general_register rx, s.general_register ry) n s.sl))
    | .SkipKeyPressed r => some (s, 0, some (.CheckKeyPressed (s.general_register r)))
    | .SkipKeyReleased r => some (s, 0, some (.CheckKeyReleased (s.general_register r)))
    | .SetDelayToReg r => some ({ s with g := s.g.set r s.dt }, 1, none)
    | .WaitKeyPress r => some (s, 1, some (.WaitKeyPress r))
    | .SetDelayFromReg r => some ({ s with dt := s.general_register r }, 1, none)
    | .SetSoundFromReg r => some ({ s with st := s.general_register r }, 1, none)
    | .AddRegL r =>
      -- self.sl += g[r] as u16  (checked u16 addition in a debug build)
      match checkedAdd 16 s.sl (s.general_register r) with
      | none => none
      | some v => some ({ s with sl := v }, 1, none)
    | .SetRegLFontAddrFromReg r =>
      -- self.sl = (g[r] as u16) * 10u16
      match checkedMul 16 (s.general_register r) 10 with
      | none => none
      | some v => some ({ s with sl := v }, 1, none)
    | .MemDump endr =>
      -- self.g[0..=endr].to_vec(): out-of-bounds slice panics
      if endr < s.g.length then some (s, 1, some (.MemDump (s.g.take (endr + 1)) s.sl))
      else none
    | .MemRead endr =>
      -- count = endr + 1 on u8 (checked in a debug build)
      match checkedAdd 8 endr 1 with
      | none => none
      | some c => some (s, 1, some (.MemRead c s.sl))
  match step with
  | none => none
  | some (s1, pc_increment, side_effect) =>
    match s1.increase_pc pc_increment with
    | none => none
    | some s2 => some (s2, side_effect)

/-- `Registers::update_general_register`: writes are silently dropped for
`r >= 0x0F`. -/
def Registers.update_general_register (s : Registers) (r value : Nat) : Registers :=
  if 0x0F ≤ r then s
  else { s with g := s.g.set r value }

/-- `isa::parse_instruction` over the two instruction bytes.  Only the variants
declared in `isa.rs` are produced; `0x8xy_` with a nonzero low nibble falls
into the `@todo` arm returning `None`, and the `0x5`, `0x9`, `0xB`, `0xE`,
`0xF` families fall into the default `None` arm. -/
def isa.parse_instruction (b0 b1 : Nat) : Option Instruction :=
  let opr0 := b0 >>> 4
  let r := b0 &&& 0x0F
  let val := b1
  match opr0 with
  | 0x00 =>
    if r = 0 ∧ b1 = 0xE0 then some .ClearDisplay
    else if r = 0 ∧ b1 = 0xEE then some .ReturnSubroutine
    else some .Ignore
  | 0x01 => some (.JmpAddr ((r <<< 8) + b1))
  | 0x02 => some (.CallSub ((r <<< 8) + b1))
  | 0x03 => some (.SkipEq r val)
  | 0x04 => some (.SkipNeq r val)
  | 0x06 => some (.SetByte r val)
  | 0x07 => some (.AddByte r val)
  | 0x08 =>
    let f := b1 >>> 4
    match b1 &&& 0x0F with
    | 0 => some (.SetRegV r f)
    | _ => none
  | 0x0A => some (.SetRegL ((r <<< 8) + b1))
  | 0x0C => some (.RndAnd r val)
  | 0x0D => some (.DispSpr r (b1 >>> 4) (b1 &&& 0x0F))
  | _ => none

/-- The built-in font table of `Memory::new` (16 glyphs × 5 bytes, packed from
address 0). -/
def font_pack : List Nat :=
  [0xF, 0x9, 0x9, 0x9, 0xF,
   0x2, 0x6, 0x2, 0x2, 0x7,
   0xF, 0x1, 0xF, 0x8, 0xF,
   0xF, 0x1, 0xF, 0x1, 0xF,
   0x9, 0x9, 0xF, 0x1, 0x1,
   0xF, 0x8, 0xF, 0x1, 0xF,
   0xF, 0x8, 0xF, 0x9, 0xF,
   0xF, 0x1, 0x2, 0x4, 0x4,
   0xF, 0x9, 0xF, 0x9, 0xF,
   0xF, 0x9, 0xF, 0x1, 0xF,
   0xF, 0x9, 0xF, 0x9, 0x9,
   0xE, 0x9, 0xE, 0x9, 0xE,
   0xF, 0x8, 0x8, 0x8, 0xF,
   0xE, 0x9, 0x9, 0x9, 0xE,
   0xF, 0x8, 0xF, 0x8, 0xF,
   0xF, 0x8, 0xF, 0x8, 0x8]

/-- `for (t, r) in mem.iter_mut().zip(pat.iter()) { *t = *r; }`: overwrite the
front of `mem` with `pat`, stopping at the shorter list. -/
def overwriteZip : List Nat → List Nat → List Nat
  | mem, [] => mem
  | [], _ => []
  | _ :: ms, p :: ps => p :: overwriteZip ms ps

/-- The 4096-byte address space (`memory.rs::Memory`). -/
structure Memory where
  memory : List Nat
deriving DecidableEq

/-- `Memory::new` modulo file IO: a 4096-byte zeroed space, the font pack
written at address 0, then the ROM bytes `data` written from address 0x200. -/
def Memory.new (data : List Nat) : Memory :=
  let m0 := List.replicate (4 <<< 10) 0
  let m1 := overwriteZip m0 font_pack
  ⟨m1.take 0x200 ++ overwriteZip (m1.drop 0x200) data⟩

/-- `Memory::parse_instruction`.  The guard `(addr + 1) as usize >= len`
returns the explicit failure `some none`; the outer `none` models the debug
panic of the checked `u16` addition `addr + 1` at `addr = 0xFFFF`. -/
def Memory.parse_instruction (m : Memory) (addr : Nat) : Option (Option Instruction) :=
  match checkedAdd 16 addr 1 with
  | none => none
  | some a1 =>
    if m.memory.length ≤ a1 then some none
    else some (isa.parse_instruction (m.memory.getD addr 0) (m.memory.getD (addr + 1) 0))

/-! ## Theorems -/

/-- Reading back the entry just written by `List.set`. -/
theorem getD_set_self (l : List Nat) (i v : Nat) (h : i < l.length) :
    (l.set i v).getD i 0 = v := by
  rw [List.getD_eq_getElem?_getD, List.getElem?_set_eq_of_lt v h, Option.getD_some]

/-- C1: the add-with-carry instruction (0x8xy4) sets Vx to (Vx + Vy) mod 256
and sets the carry flag to true iff the unsigned sum Vx + Vy is at least 256. -/
theorem addRegV_carry_spec (s : Registers) (r f rnd : Nat)
    (hr : r < s.g.length) (hf : f < s.g.length) (hpc : s.pc + 2 < 65536) :
    (s.update_registers (.AddRegV r f) rnd).map
        (fun p => (p.1.general_register r, p.1.vf, p.2)) =
      some ((s.general_register r + s.general_register f) % 256,
            decide (256 ≤ s.general_register r + s.general_register f), none) := by
  have h2 : s.pc + 1 <<< 1 < 2 ^ 16 := by
    have he : (1 : Nat) <<< 1 = 2 := rfl
    rw [he]
    calc s.pc + 2 < 65536 := hpc
    _ ≤ 2 ^ 16 := by norm_num
  simp only [Registers.update_registers, Registers.increase_pc, checkedAdd, h2, if_true,
    Option.map_some', Registers.general_register]
  rw [getD_set_self _ _ _ hr]

/-- C1 witness at V0 = 200, V1 = 100. -/
theorem addRegV_carry_spec_witness :
    (Registers.update_registers
        { Registers.new with g := ((List.replicate 16 0).set 0 200).set 1 100 }
        (.AddRegV 0 1) 0).map
        (fun p => (p.1.general_register 0, p.1.vf, p.2)) =
      some (44, true, none) := by
  have h := addRegV_carry_spec
    { Registers.new with g := ((List.replicate 16 0).set 0 200).set 1 100 }
    0 1 0 (by decide) (by decide) (by decide)
  exact h.trans (by decide)

/-- C2: the subtract instruction Vx−Vy (0x8xy5) sets Vx to (Vx − Vy) mod 256
with the flag true iff Vx ≥ Vy (no borrow), and the reverse-form subtract
Vy−Vx (0x8xy7) sets Vx to (Vy − Vx) mod 256 with the flag true iff Vy ≥ Vx.
The last conjunct identifies the Nat expression with the mathematical
(Vx − Vy) mod 256 over ℤ. -/
theorem sub_no_borrow_spec (s : Registers) (r f rnd : Nat)
    (hr : r < s.g.length) (hf : f < s.g.length)
    (ha : s.general_register r < 256) (hb : s.general_register f < 256)
    (hpc : s.pc + 2 < 65536) :
    ((s.update_registers (.SubRegV r f) rnd).map
        (fun p => (p.1.general_register r, p.1.vf, p.2)) =
      some ((s.general_register r + 256 - s.general_register f) % 256,
            decide (s.general_register f ≤ s.general_register r), none))
    ∧ ((s.update_registers (.SubNRegV r f) rnd).map
        (fun p => (p.1.general_register r, p.1.vf, p.2)) =
      some ((s.general_register f + 256 - s.general_register r) % 256,
            decide (s.general_register r ≤ s.general_register f), none))
    ∧ (((s.general_register r + 256 - s.general_register f) % 256 : Int) =
        ((s.general_register r : Int) - (s.general_register f : Int)) % 256)
    ∧ (((s.general_register f + 256 - s.general_register r) % 256 : Int) =
        ((s.general_register f : Int) - (s.general_register r : Int)) % 256) := by
  have h2 : s.pc + 1 <<< 1 < 2 ^ 16 := by
    have he : (1 : Nat) <<< 1 = 2 := rfl
    rw [he]
    calc s.pc + 2 < 65536 := hpc
    _ ≤ 2 ^ 16 := by norm_num
  refine ⟨?_, ?_, ?_, ?_⟩
  · simp only [Registers.update_registers, Registers.increase_pc, checkedAdd, h2, if_true,
      Option.map_some', Registers.general_register]
    rw [getD_set_self _ _ _ hr]
  · simp only [Registers.update_registers, Registers.increase_pc, checkedAdd, h2, if_true,
      Option.map_some', Registers.general_register]
    rw [getD_set_self _ _ _ hr]
  · omega
  · omega

/-- C2 witness at V0 = 3, V1 = 5. -/
theorem sub_no_borrow_spec_witness :
    ((Registers.update_registers
        { Registers.new with g := ((List.replicate 16 0).set 0 3).set 1 5 }
        (.SubRegV 0 1) 0).map
        (fun p => (p.1.general_register 0, p.1.vf, p.2)) =
      some (254, false, none))
    ∧ ((Registers.update_registers
        { Registers.new with g := ((List.replicate 16 0).set 0 3).set 1 5 }
        (.SubNRegV 0 1) 0).map
        (fun p => (p.1.general_register 0, p.1.vf, p.2)) =
      some (2, true, none)) := by
  have h := sub_no_borrow_spec
    { Registers.new with g := ((List.replicate 16 0).set 0 3).set 1 5 }
    0 1 0 (by decide) (by decide) (by decide) (by decide) (by decide)
  exact ⟨h.1.trans (by decide), h.2.1.trans (by decide)⟩

/-- C6: from a state with a non-full call stack, a call (0x2nnn) pushes the
pre-increment return address and sets PC to the target; an immediately
following return (0x00EE) pops it and advances one 2-byte word, leaving PC at
call-site + 2 and the stack depth unchanged. -/
theorem call_return_roundtrip (s : Registers) (new_pc rnd1 rnd2 : Nat)
    (hstack : s.spst.length < 16) (hnp : new_pc < 65536) (hpc : s.pc + 2 < 65536) :
    ((s.update_registers (.CallSub new_pc) rnd1).bind fun p1 =>
      (p1.1.update_registers .ReturnSubroutine rnd2).map fun p2 =>
        (p1.1.spst, p1.1.pc, p2.1.pc, p2.1.spst.length))
    = some (s.pc :: s.spst, new_pc, s.pc + 2, s.spst.length) := by
  have h0 : new_pc + 0 <<< 1 < 2 ^ 16 := by
    have he : (0 : Nat) <<< 1 = 0 := rfl
    rw [he]
    calc new_pc + 0 = new_pc := by omega
    _ < 65536 := hnp
    _ ≤ 2 ^ 16 := by norm_num
  have h2 : s.pc + 1 <<< 1 < 2 ^ 16 := by
    have he : (1 : Nat) <<< 1 = 2 := rfl
    rw [he]
    calc s.pc + 2 < 65536 := hpc
    _ ≤ 2 ^ 16 := by norm_num
  have h2' : s.pc + 2 + 0 <<< 1 < 2 ^ 16 := by
    have he : (0 : Nat) <<< 1 = 0 := rfl
    rw [he]
    calc s.pc + 2 + 0 = s.pc + 2 := by omega
    _ < 65536 := hpc
    _ ≤ 2 ^ 16 := by norm_num
  simp only [Registers.update_registers, Registers.increase_pc, checkedAdd, h0, h2, h2',
    if_true, Option.bind_some, Option.map_some']
  simp [hpc, Nat.shiftLeft_eq]

/-- C6 witness: call to 0x300 from the initial state. -/
theorem call_return_roundtrip_witness :
    ((Registers.update_registers Registers.new (.CallSub 0x300) 0).bind fun p1 =>
      (p1.1.update_registers .ReturnSubroutine 0).map fun p2 =>
        (p1.1.spst, p1.1.pc, p2.1.pc, p2.1.spst.length))
    = some ([0x200], 0x300, 0x202, 0) := by
  have h := call_return_roundtrip Registers.new 0x300 0 0 (by decide) (by decide) (by decide)
  exact h.trans (by decide)

/-- C9: executing return-from-subroutine (0x00EE) on an empty call stack fails
the `assert!` — modelled as the panic result `none` — and is never reported as
a successful instruction. -/
theorem return_empty_stack_fatal (s : Registers) (rnd : Nat) (h : s.spst = []) :
    s.update_registers .ReturnSubroutine rnd = none := by
  simp only [Registers.update_registers, h]

/-- C9 witness: the initial state has an empty call stack. -/
theorem return_empty_stack_fatal_witness :
    Registers.update_registers Registers.new .ReturnSubroutine 0 = none :=
  return_empty_stack_fatal Registers.new 0 (by decide)

/-- C10: `update_general_register` with register index r ≥ 0x0F returns the
state entirely unchanged (general registers, flag, PC, stack and timers); in
particular VF (index 15) can never be written through this interface, which is
the interface `main.rs` uses to deliver the key value of a key-wait. -/
theorem update_general_register_high_frame (s : Registers) (r value : Nat)
    (h : 0x0F ≤ r) :
    s.update_general_register r value = s := by
  simp only [Registers.update_general_register, if_pos h]

/-- C10 witness: a write to VF (index 15) on the initial state is dropped. -/
theorem update_general_register_high_frame_witness :
    Registers.update_general_register Registers.new 15 7 = Registers.new :=
  update_general_register_high_frame Registers.new 15 7 (by decide)

/-- C3: the set-index-to-font-address instruction (0xFx29) multiplies the
digit by 10, but `Memory::new` packs the 5-byte glyphs contiguously from
address 0, so digit k lives at k*5.  For the digit 1, the instruction sets
L = 10 — the address of glyph 2 ([0xF,0x1,0xF,0x8,0xF]) — while glyph 1
([0x2,0x6,0x2,0x2,0x7]) is stored at address 5. -/
theorem fontAddr_times_ten_mismatch :
    ((Registers.update_registers
        { Registers.new with g := (List.replicate 16 0).set 0 1 }
        (.SetRegLFontAddrFromReg 0) 0).map (fun p => (p.1.sl, p.2)) =
      some (10, none))
    ∧ ((Memory.new []).memory.drop 5).take 5 = [0x2, 0x6, 0x2, 0x2, 0x7]
    ∧ ((Memory.new []).memory.drop 10).take 5 = [0xF, 0x1, 0xF, 0x8, 0xF] := by
  refine ⟨by decide, ?_, ?_⟩ <;> rfl

/-- C4: the add-literal instruction (0x7xkk) is implemented with an unchecked
`+=`, which panics on 8-bit overflow in a debug build instead of wrapping:
V0 = 255 plus literal 1 aborts (`none`), while the in-range case V0 = 250
plus 5 succeeds with the flag untouched. -/
theorem addByte_overflow_panic :
    (Registers.update_registers
        { Registers.new with g := (List.replicate 16 0).set 0 255 }
        (.AddByte 0 1) 0) = none
    ∧ ((Registers.update_registers
        { Registers.new with g := (List.replicate 16 0).set 0 250 }
        (.AddByte 0 5) 0).map (fun p => (p.1.general_register 0, p.1.vf, p.2)) =
      some (255, false, none)) := by
  exact ⟨by decide, by decide⟩

/-- C5: the decoder returns `none` (unrecognized opcode) for the whole
0x8xy1–0x8xyE ALU family other than 0x8xy0 and for every 0xFx__ timer/key
opcode, although `update_registers` implements executors for all of them:
shown here on OR 0x8121, AND 0x8122, XOR 0x8123, ADD 0x8124, SUB 0x8125,
SHR 0x8126, SUBN 0x8127, SHL 0x812E, delay-read 0xF107, key-wait 0xF10A,
delay-write 0xF115 and sound-write 0xF118. -/
theorem decoder_rejects_implemented_families :
    isa.parse_instruction 0x81 0x21 = none
    ∧ isa.parse_instruction 0x81 0x22 = none
    ∧ isa.parse_instruction 0x81 0x23 = none
    ∧ isa.parse_instruction 0x81 0x24 = none
    ∧ isa.parse_instruction 0x81 0x25 = none
    ∧ isa.parse_instruction 0x81 0x26 = none
    ∧ isa.parse_instruction 0x81 0x27 = none
    ∧ isa.parse_instruction 0x81 0x2E = none
    ∧ isa.parse_instruction 0xF1 0x07 = none
    ∧ isa.parse_instruction 0xF1 0x0A = none
    ∧ isa.parse_instruction 0xF1 0x15 = none
    ∧ isa.parse_instruction 0xF1 0x18 = none := by
  decide

/-- C7: the carry flag lives in the separate `vf` cell and is never written
back into general register 15.  After add-with-carry on V0 = 200, V1 = 100
the flag is true, yet V15 still reads 0, and a following register copy
V2 := V15 (0x82F0) observes 0, not the flag just written. -/
theorem vf_not_mirrored_in_register15 :
    ((Registers.update_registers
        { Registers.new with g := ((List.replicate 16 0).set 0 200).set 1 100 }
        (.AddRegV 0 1) 0).bind fun p1 =>
      (p1.1.update_registers (.SetRegV 2 15) 0).map fun p2 =>
        (p1.1.vf, p1.1.general_register 15, p2.1.general_register 2))
    = some (true, 0, 0) := by
  decide

/-- Overwriting the front of a list preserves its length. -/
theorem overwriteZip_length (mem pat : List Nat) :
    (overwriteZip mem pat).length = mem.length := by
  induction mem generalizing pat with
  | nil => cases pat <;> rfl
  | cons m ms ih =>
    cases pat with
    | nil => rfl
    | cons p ps => simp [overwriteZip, ih]

/-- A freshly constructed memory spans exactly 4096 bytes. -/
theorem Memory.new_length (data : List Nat) : (Memory.new data).memory.length = 4096 := by
  unfold Memory.new
  simp only [List.length_append, List.length_take, List.length_drop, overwriteZip_length,
    List.length_replicate]
  decide

/-- C8 counterexample: executing only decoder-produced instructions from the
initial state reaches a PC that is odd and outside the 4096-byte space, and
fetch does not fail there merely for being odd.  The decoder accepts
0x1FFF (jump to the odd address 0xFFF) and 0x3000 (skip if V0 = 0); from the
initial state the jump leaves PC = 0xFFF (odd), and the taken skip then
leaves PC = 0x1003 = 4099 (odd and ≥ 4096). -/
theorem pc_invariant_counterexample :
    isa.parse_instruction 0x1F 0xFF = some (.JmpAddr 0xFFF)
    ∧ isa.parse_instruction 0x30 0x00 = some (.SkipEq 0 0)
    ∧ ((Registers.update_registers Registers.new (.JmpAddr 0xFFF) 0).bind fun p1 =>
        (p1.1.update_registers (.SkipEq 0 0) 0).map fun p2 =>
          (p1.1.pc, p2.1.pc))
      = some (0xFFF, 0x1003)
    ∧ 0xFFF % 2 = 1
    ∧ 4096 ≤ 0x1003 := by
  decide

/-- C8 (amended): `Memory::parse_instruction` fails with an explicit `None`
(never an out-of-bounds read) at every fetch address whose second byte lies
beyond the 4096-byte space, as long as the checked `addr + 1` itself does not
overflow `u16`. -/
theorem fetch_out_of_range_explicit_none (m : Memory) (addr : Nat)
    (hlen : m.memory.length = 4096) (h1 : 4096 ≤ addr + 1) (h2 : addr + 1 < 65536) :
    m.parse_instruction addr = some none := by
  have hc : checkedAdd 16 addr 1 = some (addr + 1) := by
    simp only [checkedAdd]
    rw [if_pos]
    calc addr + 1 < 65536 := h2
    _ ≤ 2 ^ 16 := by norm_num
  simp only [Memory.parse_instruction, hc]
  rw [if_pos]
  omega

/-- C8 witness: fetching at address 4095 of a freshly constructed memory. -/
theorem fetch_out_of_range_explicit_none_witness :
    (Memory.new []).parse_instruction 4095 = some none :=
  fetch_out_of_range_explicit_none (Memory.new []) 4095 (Memory.new_length []) (by decide)
    (by decide)
